import Mathlib

/-!
Verification of libcluster (bbcarchdev/libcluster), a cluster membership and
worker-index allocation library. This file shallowly embeds the C sources:

  * the assignment algorithm: the record-set fold inside
    cluster_sql_balance_ (src/engines/sql.c) and cluster_etcd_balance_
    (src/etcd.c);
  * the balance-pass state update plus rebalance notification
    (cluster_rebalanced_, src/cluster.c);
  * the static back-end (src/static.c);
  * the lifecycle entry points cluster_join / cluster_leave /
    cluster_destroy and the accessors and configuration setters
    (src/cluster.c);
  * the SQL engine's ping (cluster_sql_perform_ping_, src/engines/sql.c)
    with its UTC timestamp rendering.

Machine integers are modelled as Int (the relevant C quantities are small:
worker counts, indices); strings as Lean String (C strings compared with
strcmp, which on the identifiers used - printable ASCII - agrees with the
String order); time_t as Nat seconds since the Unix epoch. Thread spawning,
locks and blocking I/O are collapsed into synchronous state transitions on
explicit state records; registry contents are explicit lists.
-/

namespace Libcluster

/-- A membership record as seen by a balance pass: one row of the
cluster_node table projected to ("id", "threads"), or one entry of the etcd
environment directory (key, integer value). -/
structure MemberRecord where
  id : String
  threads : Int
deriving Repr, DecidableEq

/-- Total order on records by their identifier, mirroring the SQL
ORDER BY "id" ASC and the qsort(..., strcmp) in cluster_etcd_json_keys_. -/
def recLE (a b : MemberRecord) : Prop := a.id ≤ b.id

instance : DecidableRel recLE := fun a b => inferInstanceAs (Decidable (a.id ≤ b.id))

instance : IsTotal MemberRecord recLE := ⟨fun a b => le_total a.id b.id⟩

instance : IsTrans MemberRecord recLE := ⟨fun _ _ _ h1 h2 => le_trans h1 h2⟩

/-- The record-processing loop of cluster_sql_balance_ (src/engines/sql.c,
lines 258-280): walk the ordered result set; when a row's id equals this
instance's id and the instance is not passive, remember the running total as
the base; always add the row's thread count to the running total. -/
def balanceLoop (instid : String) (passive : Bool) : List MemberRecord → Int → Int → Int × Int
  | [], base, total => (base, total)
  | r :: rest, base, total =>
      balanceLoop instid passive rest
        (if r.id = instid ∧ passive = false then total else base)
        (total + r.threads)

/-- The record-processing loop of cluster_etcd_balance_ (src/etcd.c, lines
245-274): identical to the SQL loop except that there is no passive check
on the id comparison. -/
def etcdBalanceLoop (instid : String) : List MemberRecord → Int → Int → Int × Int
  | [], base, total => (base, total)
  | r :: rest, base, total =>
      etcdBalanceLoop instid rest
        (if r.id = instid then total else base)
        (total + r.threads)

/-- Result (base, total) of the SQL balance fold over an ordered result set,
starting from base = -1 and total = 0 as in cluster_sql_balance_. -/
def sqlBalancePair (instid : String) (passive : Bool) (S : List MemberRecord) : Int × Int :=
  balanceLoop instid passive S (-1) 0

/-- Result (base, total) of the etcd balance fold: cluster_etcd_json_keys_
sorts the directory keys with strcmp before the walk. qsort is an unstable
comparison sort, but on distinct keys every comparison sort yields the same
list, so it is modelled with insertion sort. -/
def etcdBalancePair (instid : String) (dict : List MemberRecord) : Int × Int :=
  etcdBalanceLoop instid (List.insertionSort recLE dict) (-1) 0

/-- Sum of the worker counts of the records sorting strictly before the
given identifier - the value the spec assigns to inst_index. -/
def claimedBefore (instid : String) (S : List MemberRecord) : Int :=
  ((S.filter (fun r => r.id < instid)).map MemberRecord.threads).sum

/-- Sum of the first k entries of a worker-count list (prefix sum). -/
def preSum (ws : List Int) (k : Nat) : Int := (ws.take k).sum

theorem balanceLoop_total (instid : String) (passive : Bool) :
    ∀ (S : List MemberRecord) (base total : Int),
      (balanceLoop instid passive S base total).2 = total + (S.map MemberRecord.threads).sum := by
  intro S
  induction S with
  | nil => intro base total; simp [balanceLoop]
  | cons r rest ih =>
      intro base total
      simp only [balanceLoop, ih, List.map_cons, List.sum_cons]
      ring

theorem etcdBalanceLoop_total (instid : String) :
    ∀ (S : List MemberRecord) (base total : Int),
      (etcdBalanceLoop instid S base total).2 = total + (S.map MemberRecord.threads).sum := by
  intro S
  induction S with
  | nil => intro base total; simp [etcdBalanceLoop]
  | cons r rest ih =>
      intro base total
      simp only [etcdBalanceLoop, ih, List.map_cons, List.sum_cons]
      ring

theorem balanceLoop_base_of_forall_ne (instid : String) (passive : Bool) :
    ∀ (S : List MemberRecord) (base total : Int),
      (∀ r ∈ S, r.id ≠ instid) →
      (balanceLoop instid passive S base total).1 = base := by
  intro S
  induction S with
  | nil => intro base total _; rfl
  | cons r rest ih =>
      intro base total h
      have hr : r.id ≠ instid := h r (List.mem_cons_self r rest)
      have hrest : ∀ r' ∈ rest, r'.id ≠ instid := fun r' hm => h r' (List.mem_cons_of_mem r hm)
      simp only [balanceLoop]
      rw [if_neg (by exact fun hc => hr hc.1)]
      exact ih base (total + r.threads) hrest

theorem balanceLoop_base_passive (instid : String) :
    ∀ (S : List MemberRecord) (base total : Int),
      (balanceLoop instid true S base total).1 = base := by
  intro S
  induction S with
  | nil => intro base total; rfl
  | cons r rest ih =>
      intro base total
      simp only [balanceLoop]
      rw [if_neg (by simp)]
      exact ih base (total + r.threads)

theorem etcdBalanceLoop_base_of_forall_ne (instid : String) :
    ∀ (S : List MemberRecord) (base total : Int),
      (∀ r ∈ S, r.id ≠ instid) →
      (etcdBalanceLoop instid S base total).1 = base := by
  intro S
  induction S with
  | nil => intro base total _; rfl
  | cons r rest ih =>
      intro base total h
      have hr : r.id ≠ instid := h r (List.mem_cons_self r rest)
      have hrest : ∀ r' ∈ rest, r'.id ≠ instid := fun r' hm => h r' (List.mem_cons_of_mem r hm)
      simp only [etcdBalanceLoop]
      rw [if_neg hr]
      exact ih base (total + r.threads) hrest

/-- With passive = false the SQL loop and the etcd loop coincide. -/
theorem etcdBalanceLoop_eq_balanceLoop (instid : String) :
    ∀ (S : List MemberRecord) (base total : Int),
      etcdBalanceLoop instid S base total = balanceLoop instid false S base total := by
  intro S
  induction S with
  | nil => intro base total; rfl
  | cons r rest ih =>
      intro base total
      simp only [balanceLoop, etcdBalanceLoop, ih]
      by_cases h : r.id = instid
      · rw [if_pos h, if_pos (by simp [h])]
      · rw [if_neg h, if_neg (by simp [h])]

theorem balanceLoop_base_mem (instid : String) :
    ∀ (S : List MemberRecord) (base total : Int),
      S.Pairwise (fun a b => a.id < b.id) →
      instid ∈ S.map MemberRecord.id →
      (balanceLoop instid false S base total).1 = total + claimedBefore instid S := by
  intro S
  induction S with
  | nil => intro base total _ hm; simp at hm
  | cons r rest ih =>
      intro base total hsort hm
      obtain ⟨hhead, htail⟩ := List.pairwise_cons.mp hsort
      by_cases h : r.id = instid
      · have hrest : ∀ r' ∈ rest, r'.id ≠ instid := by
          intro r' hr'
          have := hhead r' hr'
          rw [h] at this
          exact ne_of_gt this
        simp only [balanceLoop]
        rw [if_pos (by exact ⟨h, by trivial⟩)]
        rw [balanceLoop_base_of_forall_ne instid false rest total (total + r.threads) hrest]
        have hcb : claimedBefore instid (r :: rest) = 0 := by
          unfold claimedBefore
          have hnil : (r :: rest).filter (fun x => x.id < instid) = [] := by
            rw [List.filter_eq_nil]
            intro a ha
            rcases List.mem_cons.mp ha with h0 | h0
            · subst h0
              simp [h]
            · have := hhead a h0
              rw [h] at this
              simp [not_lt_of_gt this]
          rw [hnil]
          rfl
        rw [hcb, add_zero]
      · have hm' : instid ∈ rest.map MemberRecord.id := by
          rcases List.mem_map.mp hm with ⟨a, ha, hid⟩
          rcases List.mem_cons.mp ha with h0 | h0
          · exact absurd (h0 ▸ hid) h
          · exact List.mem_map.mpr ⟨a, h0, hid⟩
        have hlt : r.id < instid := by
          rcases List.mem_map.mp hm' with ⟨a, ha, hid⟩
          exact hid ▸ hhead a ha
        simp only [balanceLoop]
        rw [if_neg (by exact fun hc => h hc.1)]
        rw [ih base (total + r.threads) htail hm']
        have hcb : claimedBefore instid (r :: rest) = r.threads + claimedBefore instid rest := by
          unfold claimedBefore
          rw [List.filter_cons_of_pos (by simp [hlt])]
          simp
        rw [hcb]
        ring

theorem etcdBalancePair_of_sorted (instid : String) (S : List MemberRecord)
    (hsort : S.Pairwise (fun a b => a.id < b.id)) :
    etcdBalancePair instid S = sqlBalancePair instid false S := by
  unfold etcdBalancePair sqlBalancePair
  have hs : List.Sorted recLE S := by
    unfold List.Sorted
    exact hsort.imp (fun h => le_of_lt h)
  rw [List.Sorted.insertionSort_eq hs]
  exact etcdBalanceLoop_eq_balanceLoop instid S (-1) 0

theorem filter_lt_get_eq_take :
    ∀ (S : List MemberRecord), S.Pairwise (fun a b => a.id < b.id) →
      ∀ (k : Nat) (hk : k < S.length),
        S.filter (fun r => r.id < (S.get ⟨k, hk⟩).id) = S.take k := by
  intro S
  induction S with
  | nil => intro _ k hk; simp at hk
  | cons r rest ih =>
      intro hsort k hk
      obtain ⟨hhead, htail⟩ := List.pairwise_cons.mp hsort
      cases k with
      | zero =>
          simp only [List.get, List.take_zero]
          rw [List.filter_cons_of_neg (by simp)]
          rw [List.filter_eq_nil]
          intro a ha
          simp [not_lt_of_gt (hhead a ha)]
      | succ j =>
          have hj : j < rest.length := Nat.succ_lt_succ_iff.mp hk
          have hget : (r :: rest).get ⟨j + 1, hk⟩ = rest.get ⟨j, hj⟩ := rfl
          rw [hget]
          have hrlt : r.id < (rest.get ⟨j, hj⟩).id := hhead _ (rest.get_mem j hj)
          rw [List.filter_cons_of_pos (by exact decide_eq_true hrlt)]
          rw [ih htail j hj]
          rfl

theorem claimedBefore_get (S : List MemberRecord)
    (hsort : S.Pairwise (fun a b => a.id < b.id)) (k : Nat) (hk : k < S.length) :
    claimedBefore (S.get ⟨k, hk⟩).id S = preSum (S.map MemberRecord.threads) k := by
  unfold claimedBefore preSum
  rw [filter_lt_get_eq_take S hsort k hk, List.map_take]

theorem preSum_zero (ws : List Int) : preSum ws 0 = 0 := rfl

theorem preSum_succ (ws : List Int) (k : Nat) (hk : k < ws.length) :
    preSum ws (k + 1) = preSum ws k + ws.get ⟨k, hk⟩ :=
  List.sum_take_succ ws k hk

theorem preSum_cons_succ (w : Int) (ws : List Int) (k : Nat) :
    preSum (w :: ws) (k + 1) = w + preSum ws k := by
  unfold preSum
  rw [List.take_succ_cons, List.sum_cons]

theorem preSum_nonneg (ws : List Int) (hnn : ∀ w ∈ ws, 0 ≤ w) (k : Nat) :
    0 ≤ preSum ws k :=
  List.sum_nonneg (fun w hw => hnn w (List.take_subset k ws hw))

theorem sum_eq_preSum_add_drop (ws : List Int) (k : Nat) :
    ws.sum = preSum ws k + (ws.drop k).sum := by
  conv_lhs => rw [← List.take_append_drop k ws]
  rw [List.sum_append]
  rfl

theorem preSum_le_sum (ws : List Int) (hnn : ∀ w ∈ ws, 0 ≤ w) (k : Nat) :
    preSum ws k ≤ ws.sum := by
  rw [sum_eq_preSum_add_drop ws k]
  have : 0 ≤ (ws.drop k).sum :=
    List.sum_nonneg (fun w hw => hnn w (List.drop_subset k ws hw))
  linarith

theorem preSum_le_succ (ws : List Int) (hnn : ∀ w ∈ ws, 0 ≤ w) (k : Nat) :
    preSum ws k ≤ preSum ws (k + 1) := by
  by_cases hk : k < ws.length
  · rw [preSum_succ ws k hk]
    have : 0 ≤ ws.get ⟨k, hk⟩ := hnn _ (ws.get_mem k hk)
    linarith
  · have hlen : ws.length ≤ k := Nat.le_of_not_lt hk
    unfold preSum
    rw [List.take_of_length_le hlen, List.take_of_length_le (Nat.le_succ_of_le hlen)]

theorem preSum_mono (ws : List Int) (hnn : ∀ w ∈ ws, 0 ≤ w) :
    ∀ (a d : Nat), preSum ws a ≤ preSum ws (a + d) := by
  intro a d
  induction d with
  | zero => exact le_refl _
  | succ e ih => exact le_trans ih (preSum_le_succ ws hnn (a + e))

theorem preSum_mono_of_le (ws : List Int) (hnn : ∀ w ∈ ws, 0 ≤ w)
    (a b : Nat) (h : a ≤ b) : preSum ws a ≤ preSum ws b := by
  obtain ⟨d, rfl⟩ := Nat.exists_eq_add_of_le h
  exact preSum_mono ws hnn a d

theorem preSum_cover (ws : List Int) (hnn : ∀ w ∈ ws, 0 ≤ w) (x : Int) :
    (0 ≤ x ∧ x < ws.sum) ↔
      ∃ k, ∃ hk : k < ws.length, preSum ws k ≤ x ∧ x < preSum ws k + ws.get ⟨k, hk⟩ := by
  constructor
  · intro hx
    induction ws generalizing x with
    | nil => simp at hx; omega
    | cons w rest ih =>
        have hw : 0 ≤ w := hnn w (List.mem_cons_self w rest)
        have hrest : ∀ v ∈ rest, 0 ≤ v := fun v hv => hnn v (List.mem_cons_of_mem w hv)
        rw [List.sum_cons] at hx
        by_cases hxw : x < w
        · refine ⟨0, Nat.succ_pos rest.length, ?_, ?_⟩
          · exact hx.1
          · rw [preSum_zero]
            simpa using hxw
        · have hx' : 0 ≤ x - w ∧ x - w < rest.sum := by omega
          obtain ⟨k, hk, h1, h2⟩ := ih hrest (x - w) hx'
          refine ⟨k + 1, Nat.succ_lt_succ hk, ?_, ?_⟩
          · rw [preSum_cons_succ]
            omega
          · rw [preSum_cons_succ]
            have hget : (w :: rest).get ⟨k + 1, Nat.succ_lt_succ hk⟩ = rest.get ⟨k, hk⟩ := rfl
            rw [hget]
            omega
  · intro ⟨k, hk, h1, h2⟩
    have h0 : 0 ≤ preSum ws k := preSum_nonneg ws hnn k
    have hup : preSum ws k + ws.get ⟨k, hk⟩ ≤ ws.sum := by
      rw [← preSum_succ ws k hk]
      exact preSum_le_sum ws hnn (k + 1)
    exact ⟨le_trans h0 h1, lt_of_lt_of_le h2 hup⟩

theorem preSum_range_disjoint (ws : List Int) (hnn : ∀ w ∈ ws, 0 ≤ w)
    (j k : Nat) (hj : j < ws.length) (hk : k < ws.length) (hne : j ≠ k) (x : Int) :
    ¬(preSum ws j ≤ x ∧ x < preSum ws j + ws.get ⟨j, hj⟩ ∧
      preSum ws k ≤ x ∧ x < preSum ws k + ws.get ⟨k, hk⟩) := by
  have key : ∀ (a b : Nat) (ha : a < ws.length) (hb : b < ws.length), a < b →
      preSum ws a + ws.get ⟨a, ha⟩ ≤ preSum ws b := by
    intro a b ha hb hab
    rw [← preSum_succ ws a ha]
    exact preSum_mono_of_le ws hnn (a + 1) b hab
  rintro ⟨h1, h2, h3, h4⟩
  rcases Nat.lt_or_ge j k with hlt | hge
  · have := key j k hj hk hlt
    omega
  · have hlt : k < j := Nat.lt_of_le_of_ne hge (fun h => hne h.symm)
    have := key k j hk hj hlt
    omega

/-- Error codes the library reports through errno. -/
inductive Errno
  | EPERM
  | EINVAL
deriving Repr, DecidableEq

/-- Back-end selector (p_libcluster.h). -/
inductive CLUSTERTYPE
  | CT_STATIC
  | CT_ETCD
  | CT_SQL
deriving Repr, DecidableEq

/-- Snapshot passed to the balancing callback (libcluster.h,
cluster_state_struct; the revision in src/cluster.c fills index, workers and
total). -/
structure CLUSTERSTATE where
  index : Int
  workers : Int
  total : Int
deriving Repr, DecidableEq

/-- The cluster handle (p_libcluster.h, cluster_struct). The CF_* flag bits
are individual Bools; CF_PASSIVE and the fork mode belong to the newer
revision of the header used by src/engines/sql.c. Connection handles and
running threads are booleans recording whether they exist. -/
structure CLUSTER where
  ctype : CLUSTERTYPE
  joined : Bool
  leaving : Bool
  verbose : Bool
  passive : Bool
  instid : String
  key : String
  env : String
  registry : Option String
  partition : Option String
  inst_index : Int
  inst_threads : Int
  total_threads : Int
  ttl : Nat
  refresh : Nat
  forkmode : Nat
  pingdb : Bool
  balancedb : Bool
  etcd_conn : Bool
  ping_thread : Bool
  balancer_thread : Bool
deriving Repr, DecidableEq

/-- Fresh handle built by cluster_create (src/cluster.c, lines 25-80):
calloc zeroes every field, inst_threads is set to 1, the environment
defaults to "production", ttl and refresh get their defaults. The generated
instance identifier is passed in (the C code derives it from a UUID). -/
def cluster_create (key instid : String) : CLUSTER :=
  { ctype := CLUSTERTYPE.CT_STATIC, joined := false, leaving := false
    verbose := false, passive := false
    instid := instid, key := key, env := "production"
    registry := none, partition := none
    inst_index := 0, inst_threads := 1, total_threads := 0
    ttl := 120, refresh := 30, forkmode := 1
    pingdb := false, balancedb := false, etcd_conn := false
    ping_thread := false, balancer_thread := false }

/-- Snapshot built by cluster_rebalanced_ (src/cluster.c, lines 565-584)
from the current handle fields, handed to the balancing callback. -/
def cluster_rebalanced_ (c : CLUSTER) : CLUSTERSTATE :=
  { index := c.inst_index, workers := c.inst_threads, total := c.total_threads }

/-- Zero-pad a number to two digits, as strftime %H/%M/%S/%m/%d do. -/
def pad2 (n : Nat) : String :=
  if n < 10 then "0" ++ toString n else toString n

/-- Zero-pad a number to four digits, as strftime %Y does for the years in
range. -/
def pad4 (n : Nat) : String :=
  if n < 10 then "000" ++ toString n
  else if n < 100 then "00" ++ toString n
  else if n < 1000 then "0" ++ toString n
  else toString n

/-- Proleptic-Gregorian civil date (year, month, day) for a day count since
1970-01-01, the computation gmtime performs. -/
def civilFromDays (z0 : Nat) : Nat × Nat × Nat :=
  let z := z0 + 719468
  let era := z / 146097
  let doe := z % 146097
  let yoe := (doe - doe / 1460 + doe / 36524 - doe / 146096) / 365
  let y := yoe + era * 400
  let doy := doe - (365 * yoe + yoe / 4 - yoe / 100)
  let mp := (5 * doy + 2) / 153
  let d := doy - (153 * mp + 2) / 5 + 1
  let m := if mp < 10 then mp + 3 else mp - 9
  (if m ≤ 2 then y + 1 else y, m, d)

/-- Render a time_t value (seconds since the Unix epoch) the way
cluster_sql_perform_ping_ does with gmtime_r followed by
strftime("%Y-%m-%d %H:%M:%S"). -/
def formatUTC (t : Nat) : String :=
  let days := t / 86400
  let secs := t % 86400
  let c := civilFromDays days
  pad4 c.1 ++ "-" ++ pad2 c.2.1 ++ "-" ++ pad2 c.2.2 ++ " " ++
    pad2 (secs / 3600) ++ ":" ++ pad2 (secs % 3600 / 60) ++ ":" ++ pad2 (secs % 60)

/-- Row of the cluster_node table (schema version 8, src/engines/sql.c).
The DATETIME values are kept as epoch seconds - the database compares them
temporally - and the rendered text sent over the wire is recorded in the
insert operation below. -/
structure ClusterNodeRow where
  id : String
  key : String
  partition : Option String
  env : String
  threads : Int
  updated : Nat
  expires : Nat
deriving Repr, DecidableEq

/-- SQL statements cluster_sql_perform_ping_ executes, with the timestamp
text rendered into the INSERT. -/
inductive SqlOp
  | deleteNode (id key env : String)
  | insertNode (row : ClusterNodeRow) (updatedText expiresText : String)
deriving Repr, DecidableEq

/-- Row cluster_sql_perform_ping_ inserts at clock reading t: this
instance's identity, its thread count, updated = t and expires = t + ttl. -/
def pingRow (c : CLUSTER) (t : Nat) : ClusterNodeRow :=
  { id := c.instid, key := c.key, partition := c.partition, env := c.env
    threads := c.inst_threads, updated := t, expires := t + c.ttl }

/-- Ping body (src/engines/sql.c, lines 177-205): one DELETE of this
instance's row then one INSERT of the fresh row; t is the single time(NULL)
reading, updated renders t and expires renders t + ttl. -/
def cluster_sql_perform_ping_ (c : CLUSTER) (t : Nat) : List SqlOp :=
  [SqlOp.deleteNode c.instid c.key c.env,
   SqlOp.insertNode (pingRow c t) (formatUTC t) (formatUTC (t + c.ttl))]

/-- Effect of one SQL statement on the cluster_node table. -/
def applySqlOp (reg : List ClusterNodeRow) : SqlOp → List ClusterNodeRow
  | SqlOp.deleteNode i k e => reg.filter (fun r => ¬(r.id = i ∧ r.key = k ∧ r.env = e))
  | SqlOp.insertNode row _ _ => reg ++ [row]

/-- cluster_sql_ping_ (src/engines/sql.c, lines 167-175): a no-op for a
passive member, otherwise it performs the DELETE+INSERT transaction. -/
def cluster_sql_ping_ (c : CLUSTER) (reg : List ClusterNodeRow) (t : Nat) : List ClusterNodeRow :=
  if c.passive then reg
  else (cluster_sql_perform_ping_ c t).foldl applySqlOp reg

/-- Result set of the balance SELECT (src/engines/sql.c, lines 248-257):
rows of this cluster key, environment and partition whose expires is not in
the past, projected to (id, threads) and ordered by id ascending. The C
code issues a partitioned and an unpartitioned query variant; with the
partition as an Option both are the single filter below. -/
def sqlSelectNodes (c : CLUSTER) (reg : List ClusterNodeRow) (now : Nat) : List MemberRecord :=
  List.insertionSort recLE
    ((reg.filter
        (fun r => r.key = c.key ∧ r.env = c.env ∧ r.partition = c.partition ∧ now ≤ r.expires)).map
      (fun r => MemberRecord.mk r.id r.threads))

/-- cluster_sql_balance_ (src/engines/sql.c, lines 231-314): fold the
ordered result set; if the computed (base, total) differs from the current
(inst_index, total_threads), store both and invoke cluster_rebalanced_
(returned as the some-snapshot it passes to the callback), else leave the
handle untouched and notify nobody. -/
def cluster_sql_balance_ (c : CLUSTER) (reg : List ClusterNodeRow) (now : Nat) :
    CLUSTER × Option CLUSTERSTATE :=
  let p := sqlBalancePair c.instid c.passive (sqlSelectNodes c reg now)
  if p.2 ≠ c.total_threads ∨ p.1 ≠ c.inst_index then
    let c' := { c with inst_index := p.1, total_threads := p.2 }
    (c', some (cluster_rebalanced_ c'))
  else (c, none)

/-- cluster_etcd_balance_ (src/etcd.c, lines 214-309): read the environment
directory, sort its keys, fold, and update/notify exactly as the SQL
variant does. Note the fold has no passive check (src/etcd.c predates the
passive flag). -/
def cluster_etcd_balance_ (c : CLUSTER) (dict : List MemberRecord) :
    CLUSTER × Option CLUSTERSTATE :=
  let p := etcdBalancePair c.instid dict
  if p.2 ≠ c.total_threads ∨ p.1 ≠ c.inst_index then
    let c' := { c with inst_index := p.1, total_threads := p.2 }
    (c', some (cluster_rebalanced_ c'))
  else (c, none)

/-- cluster_etcd_ping_ (src/etcd.c, lines 189-196): etcd_key_set_ttl
overwrites this instance's key with its thread count; modelled as
remove-then-append. There is no passive check in this revision. -/
def cluster_etcd_ping_ (c : CLUSTER) (dict : List MemberRecord) : List MemberRecord :=
  (dict.filter (fun r => r.id ≠ c.instid)) ++ [MemberRecord.mk c.instid c.inst_threads]

/-- cluster_sql_join_ (src/engines/sql.c, lines 50-108), success path: the
two connections are established, the schema is migrated, inst_index is
reset to -1, the initial ping runs (a no-op when passive), one synchronous
balance pass runs, the ping thread is spawned unless passive, the balancer
thread is spawned, and CF_JOINED is set. Returns (result, handle, table,
callback invocations). -/
def cluster_sql_join_ (c : CLUSTER) (reg : List ClusterNodeRow) (t : Nat) :
    Int × CLUSTER × List ClusterNodeRow × List CLUSTERSTATE :=
  let c0 := { c with inst_index := -1, pingdb := true, balancedb := true }
  let reg1 := cluster_sql_ping_ c0 reg t
  let br := cluster_sql_balance_ c0 reg1 t
  let c2 := { br.1 with joined := true, ping_thread := !c.passive, balancer_thread := true }
  (0, c2, reg1, br.2.toList)

/-- cluster_etcd_join_ (src/etcd.c, lines 41-120), success path: connect,
create/open the directories, reset inst_index to -1, ping (unconditionally
- this revision has no passive handling), balance once, spawn both
threads, set CF_JOINED. -/
def cluster_etcd_join_ (c : CLUSTER) (dict : List MemberRecord) :
    Int × CLUSTER × List MemberRecord × List CLUSTERSTATE :=
  let c0 := { c with inst_index := -1, etcd_conn := true }
  let dict1 := cluster_etcd_ping_ c0 dict
  let br := cluster_etcd_balance_ c0 dict1
  let c2 := { br.1 with joined := true, ping_thread := true, balancer_thread := true }
  (0, c2, dict1, br.2.toList)

/-- cluster_static_join_ (src/static.c, lines 85-111): default the total to
1 when unset, validate the index against the total, set CF_JOINED and
invoke cluster_rebalanced_ exactly once. Returns (result, errno, handle,
callback invocations). -/
def cluster_static_join_ (c : CLUSTER) : Int × Option Errno × CLUSTER × List CLUSTERSTATE :=
  let c1 := if c.total_threads = 0 then { c with total_threads := 1 } else c
  if c1.inst_index ≥ c1.total_threads then (-1, some Errno.EINVAL, c1, [])
  else if c1.inst_index + c1.inst_threads ≥ c1.total_threads then (-1, some Errno.EINVAL, c1, [])
  else
    let c2 := { c1 with joined := true }
    (0, none, c2, [cluster_rebalanced_ c2])

/-- cluster_static_leave_ (src/static.c, lines 114-122): clear CF_JOINED
and CF_LEAVING. -/
def cluster_static_leave_ (c : CLUSTER) : Int × CLUSTER :=
  (0, { c with joined := false, leaving := false })

/-- cluster_sql_leave_ (src/engines/sql.c, lines 117-157): when joined, set
CF_LEAVING and join both threads - the ping thread issues
cluster_sql_unping_ (a DELETE of this row) as it exits, when it exists;
then clear the flags, forget the threads and disconnect both handles. -/
def cluster_sql_leave_ (c : CLUSTER) (reg : List ClusterNodeRow) :
    Int × CLUSTER × List ClusterNodeRow :=
  let reg' := if c.joined ∧ c.ping_thread then
      reg.filter (fun r => ¬(r.id = c.instid ∧ r.key = c.key ∧ r.env = c.env))
    else reg
  let c' := { c with
    joined := false, leaving := false, ping_thread := false
    balancer_thread := false, pingdb := false, balancedb := false }
  (0, c', reg')

/-- cluster_etcd_leave_ (src/etcd.c, lines 129-179): analogous; the ping
thread deletes this instance's key as it exits, then the directory handles
are closed. -/
def cluster_etcd_leave_ (c : CLUSTER) (dict : List MemberRecord) :
    Int × CLUSTER × List MemberRecord :=
  let dict' := if c.joined ∧ c.ping_thread then dict.filter (fun r => r.id ≠ c.instid) else dict
  let c' := { c with
    joined := false, leaving := false, ping_thread := false
    balancer_thread := false, etcd_conn := false }
  (0, c', dict')

/-- Registry contents visible to a handle: the cluster_node table for the
SQL back-end and the environment directory for the etcd back-end. -/
structure World where
  sqlReg : List ClusterNodeRow
  etcdDir : List MemberRecord
deriving Repr, DecidableEq

/-- cluster_join (src/cluster.c, lines 103-136): a handle that is already
joined logs and returns 0 immediately; otherwise dispatch on the back-end
type. Returns (result, handle, registries, callback invocations). -/
def cluster_join (c : CLUSTER) (w : World) (t : Nat) :
    Int × CLUSTER × World × List CLUSTERSTATE :=
  if c.joined then (0, c, w, [])
  else match c.ctype with
  | CLUSTERTYPE.CT_STATIC =>
      let r := cluster_static_join_ c
      (r.1, r.2.2.1, w, r.2.2.2)
  | CLUSTERTYPE.CT_ETCD =>
      let r := cluster_etcd_join_ c w.etcdDir
      (r.1, r.2.1, { w with etcdDir := r.2.2.1 }, r.2.2.2)
  | CLUSTERTYPE.CT_SQL =>
      let r := cluster_sql_join_ c w.sqlReg t
      (r.1, r.2.1, { w with sqlReg := r.2.2.1 }, r.2.2.2)

/-- Modelled from the spec: cluster_join_passive is declared in
libcluster.h and implemented by the newer revision of cluster.c, which is
absent from src/; per spec section 3 and 4.6 it joins with the passive flag
set, so that the member contributes no workers and performs no pings. -/
def cluster_join_passive (c : CLUSTER) (w : World) (t : Nat) :
    Int × CLUSTER × World × List CLUSTERSTATE :=
  cluster_join { c with passive := true } w t

/-- cluster_leave (src/cluster.c, lines 139-168): a handle that is not
joined returns 0 at once without touching anything; otherwise dispatch to
the back-end leave. -/
def cluster_leave (c : CLUSTER) (w : World) : Int × CLUSTER × World :=
  if c.joined = false then (0, c, w)
  else match c.ctype with
  | CLUSTERTYPE.CT_STATIC =>
      let r := cluster_static_leave_ c
      (r.1, r.2, w)
  | CLUSTERTYPE.CT_ETCD =>
      let r := cluster_etcd_leave_ c w.etcdDir
      (r.1, r.2.1, { w with etcdDir := r.2.2 })
  | CLUSTERTYPE.CT_SQL =>
      let r := cluster_sql_leave_ c w.sqlReg
      (r.1, r.2.1, { w with sqlReg := r.2.2 })

/-- Outcome of cluster_destroy: the registry contents after the implicit
leave, and the handle state observed just before it is freed. -/
structure DestroyResult where
  world : World
  leftHandle : CLUSTER
deriving Repr, DecidableEq

/-- cluster_destroy (src/cluster.c, lines 83-98): always performs
cluster_leave first, then frees the handle's allocations. -/
def cluster_destroy (c : CLUSTER) (w : World) : DestroyResult :=
  let r := cluster_leave c w
  { world := r.2.2, leftHandle := r.2.1 }

/-- cluster_index (src/cluster.c, lines 303-321): inst_index + worker when
joined; -1 with errno EPERM otherwise. The third component is the handle
after the call (the function only reads it). -/
def cluster_index (c : CLUSTER) (worker : Int) : Int × Option Errno × CLUSTER :=
  if c.joined then (c.inst_index + worker, none, c)
  else (-1, some Errno.EPERM, c)

/-- cluster_total (src/cluster.c, lines 324-342). -/
def cluster_total (c : CLUSTER) : Int × Option Errno × CLUSTER :=
  if c.joined then (c.total_threads, none, c)
  else (0, some Errno.EPERM, c)

/-- cluster_workers (src/cluster.c, lines 345-363). -/
def cluster_workers (c : CLUSTER) : Int × Option Errno × CLUSTER :=
  if c.joined then (c.inst_threads, none, c)
  else (0, some Errno.EPERM, c)

/-- cluster_set_env (src/cluster.c, lines 214-246): EPERM while joined; a
missing argument selects the default environment. Allocation is assumed to
succeed. -/
def cluster_set_env (c : CLUSTER) (env : Option String) : Int × Option Errno × CLUSTER :=
  if c.joined then (-1, some Errno.EPERM, c)
  else (0, none, { c with env := env.getD "production" })

/-- cluster_set_instance (src/cluster.c, lines 263-298): EPERM while
joined; a NULL name is EINVAL. -/
def cluster_set_instance (c : CLUSTER) (name : Option String) : Int × Option Errno × CLUSTER :=
  if c.joined then (-1, some Errno.EPERM, c)
  else match name with
  | none => (-1, some Errno.EINVAL, c)
  | some n => (0, none, { c with instid := n })

/-- Scheme test cluster_set_registry performs for the SQL back-end: the
text before the first colon, when shorter than 63 characters, is offered to
sql_scheme_exists (an external libsql predicate, passed in here). -/
def sqlSchemeMatches (sqlScheme : String → Bool) (u : String) : Bool :=
  match u.splitOn ":" with
  | sch :: _ :: _ => decide (sch.length < 63) && sqlScheme sch
  | _ => false

/-- cluster_set_registry (src/cluster.c, lines 392-473): EPERM while
joined; NULL selects the static back-end; a URI whose scheme libsql knows
selects SQL; otherwise an http: URI selects etcd; anything else is
EINVAL. -/
def cluster_set_registry (sqlScheme : String → Bool) (c : CLUSTER) (uri : Option String) :
    Int × Option Errno × CLUSTER :=
  if c.joined then (-1, some Errno.EPERM, c)
  else match uri with
  | none => (0, none, { c with registry := none, ctype := CLUSTERTYPE.CT_STATIC })
  | some u =>
      if sqlSchemeMatches sqlScheme u then
        (0, none, { c with registry := some u, ctype := CLUSTERTYPE.CT_SQL })
      else if u.startsWith "http:" then
        (0, none, { c with registry := some u, ctype := CLUSTERTYPE.CT_ETCD })
      else (-1, some Errno.EINVAL, c)

/-- cluster_set_workers (src/cluster.c, lines 476-491): note there is no
joined-guard in the source - the worker count is stored unconditionally
(the TODO comment there anticipates notifying the ping thread of live
changes). -/
def cluster_set_workers (c : CLUSTER) (nworkers : Int) : Int × Option Errno × CLUSTER :=
  (0, none, { c with inst_threads := nworkers })

/-- cluster_static_set_index (src/static.c, lines 26-50): EPERM while
joined, EINVAL when negative. -/
def cluster_static_set_index (c : CLUSTER) (instindex : Int) : Int × Option Errno × CLUSTER :=
  if c.joined then (-1, some Errno.EPERM, c)
  else if instindex < 0 then (-1, some Errno.EINVAL, c)
  else (0, none, { c with inst_index := instindex })

/-- cluster_static_set_total (src/static.c, lines 53-78): EPERM while
joined, EINVAL when below 1. -/
def cluster_static_set_total (c : CLUSTER) (total : Int) : Int × Option Errno × CLUSTER :=
  if c.joined then (-1, some Errno.EPERM, c)
  else if total < 1 then (-1, some Errno.EINVAL, c)
  else (0, none, { c with total_threads := total })

/-- Modelled from the spec: cluster_set_partition belongs to the newer
cluster.c revision absent from src/ (it is declared in libcluster.h and
called by the test harness); spec section 6 gives it the standard setter
contract - busy while joined, otherwise update the partition. -/
def cluster_set_partition (c : CLUSTER) (p : Option String) : Int × Option Errno × CLUSTER :=
  if c.joined then (-1, some Errno.EPERM, c)
  else (0, none, { c with partition := p })

/-- Modelled from the spec: cluster_set_fork likewise lives in the newer
cluster.c revision absent from src/; spec section 6 gives it the standard
setter contract - busy while joined, otherwise update the fork mode. -/
def cluster_set_fork (c : CLUSTER) (mode : Nat) : Int × Option Errno × CLUSTER :=
  if c.joined then (-1, some Errno.EPERM, c)
  else (0, none, { c with forkmode := mode })

theorem formatUTC_epoch : formatUTC 0 = "1970-01-01 00:00:00" := by rfl

theorem formatUTC_billennium : formatUTC 1000000000 = "2001-09-09 01:46:40" := by rfl

theorem get_map_threads (S : List MemberRecord) (k : Nat) (hk : k < S.length) :
    (S.map MemberRecord.threads).get ⟨k, by simpa using hk⟩ = (S.get ⟨k, hk⟩).threads := by
  simp [List.get_eq_getElem]

theorem map_threads_nonneg (S : List MemberRecord) (hnn : ∀ r ∈ S, 0 ≤ r.threads) :
    ∀ w ∈ S.map MemberRecord.threads, 0 ≤ w := by
  intro w hw
  rcases List.mem_map.mp hw with ⟨r, hr, rfl⟩
  exact hnn r hr

/-- C1: over a strictly id-sorted snapshot S of records with nonnegative
worker counts, both balance folds (cluster_sql_balance_ and
cluster_etcd_balance_) compute total_workers as the sum of all worker
counts; a non-passive instance whose id occurs in S receives the sum of the
worker counts of the records sorting strictly before its id, and -1 when
its id is absent; the k-th instance of the sorted snapshot therefore
receives the prefix sum w_1 + ... + w_{k-1}, and the per-instance ranges
[base, base + w) are pairwise disjoint and cover [0, total). -/
theorem claim_C1 (S : List MemberRecord) (instid : String)
    (hsort : S.Pairwise (fun a b => a.id < b.id))
    (hnn : ∀ r ∈ S, 0 ≤ r.threads) :
    ((sqlBalancePair instid false S).2 = (S.map MemberRecord.threads).sum ∧
     (etcdBalancePair instid S).2 = (S.map MemberRecord.threads).sum) ∧
    (instid ∈ S.map MemberRecord.id →
      (sqlBalancePair instid false S).1 = claimedBefore instid S ∧
      (etcdBalancePair instid S).1 = claimedBefore instid S) ∧
    (instid ∉ S.map MemberRecord.id →
      (sqlBalancePair instid false S).1 = -1 ∧
      (etcdBalancePair instid S).1 = -1) ∧
    (∀ (k : Nat) (hk : k < S.length),
      (sqlBalancePair (S.get ⟨k, hk⟩).id false S).1 = preSum (S.map MemberRecord.threads) k) ∧
    (∀ (j k : Nat) (hj : j < S.length) (hk : k < S.length), j ≠ k → ∀ (x : Int),
      ¬(preSum (S.map MemberRecord.threads) j ≤ x ∧
        x < preSum (S.map MemberRecord.threads) j + (S.get ⟨j, hj⟩).threads ∧
        preSum (S.map MemberRecord.threads) k ≤ x ∧
        x < preSum (S.map MemberRecord.threads) k + (S.get ⟨k, hk⟩).threads)) ∧
    (∀ x : Int, (0 ≤ x ∧ x < (S.map MemberRecord.threads).sum) ↔
      ∃ k, ∃ hk : k < S.length,
        preSum (S.map MemberRecord.threads) k ≤ x ∧
        x < preSum (S.map MemberRecord.threads) k + (S.get ⟨k, hk⟩).threads) := by
  have hetcd : etcdBalancePair instid S = sqlBalancePair instid false S :=
    etcdBalancePair_of_sorted instid S hsort
  have hwnn := map_threads_nonneg S hnn
  refine ⟨⟨?_, ?_⟩, ?_, ?_, ?_, ?_, ?_⟩
  · simpa [sqlBalancePair] using balanceLoop_total instid false S (-1) 0
  · rw [hetcd]
    simpa [sqlBalancePair] using balanceLoop_total instid false S (-1) 0
  · intro hm
    have h := balanceLoop_base_mem instid S (-1) 0 hsort hm
    rw [hetcd]
    constructor <;> simpa [sqlBalancePair] using h
  · intro hm
    have hne : ∀ r ∈ S, r.id ≠ instid := by
      intro r hr he
      exact hm (List.mem_map.mpr ⟨r, hr, he⟩)
    have h := balanceLoop_base_of_forall_ne instid false S (-1) 0 hne
    rw [hetcd]
    constructor <;> simpa [sqlBalancePair] using h
  · intro k hk
    have hm : (S.get ⟨k, hk⟩).id ∈ S.map MemberRecord.id :=
      List.mem_map.mpr ⟨S.get ⟨k, hk⟩, S.get_mem k hk, rfl⟩
    have h := balanceLoop_base_mem (S.get ⟨k, hk⟩).id S (-1) 0 hsort hm
    rw [claimedBefore_get S hsort k hk] at h
    simpa [sqlBalancePair] using h
  · intro j k hj hk hne x
    have hj' : j < (S.map MemberRecord.threads).length := by simpa using hj
    have hk' : k < (S.map MemberRecord.threads).length := by simpa using hk
    have h := preSum_range_disjoint (S.map MemberRecord.threads) hwnn j k hj' hk' hne x
    rwa [get_map_threads S j hj, get_map_threads S k hk] at h
  · intro x
    have h := preSum_cover (S.map MemberRecord.threads) hwnn x
    constructor
    · intro hx
      obtain ⟨k, hk', h1, h2⟩ := h.mp hx
      have hk : k < S.length := by simpa using hk'
      rw [get_map_threads S k hk] at h2
      exact ⟨k, hk, h1, h2⟩
    · intro ⟨k, hk, h1, h2⟩
      have hk' : k < (S.map MemberRecord.threads).length := by simpa using hk
      rw [← get_map_threads S k hk] at h2
      exact h.mpr ⟨k, hk', h1, h2⟩

/-- Concrete snapshot used to witness C1: two instances named by scenario
S2 of the spec, with 2 and 3 workers. -/
def c1snap : List MemberRecord :=
  [{ id := "aaaa", threads := 2 }, { id := "bbbb", threads := 3 }]

theorem claim_C1_witness :
    (sqlBalancePair "bbbb" false c1snap).1 = claimedBefore "bbbb" c1snap ∧
    (sqlBalancePair "cccc" false c1snap).1 = -1 ∧
    (sqlBalancePair "bbbb" false c1snap).2 = (c1snap.map MemberRecord.threads).sum := by
  have hsort : c1snap.Pairwise (fun a b => a.id < b.id) := by
    unfold c1snap
    refine List.Pairwise.cons ?_ (List.pairwise_singleton _ _)
    intro b hb
    rcases List.mem_singleton.mp hb with rfl
    rw [String.lt_iff_toList_lt]
    decide
  have hnn : ∀ r ∈ c1snap, 0 ≤ r.threads := by decide
  have h := claim_C1 c1snap "bbbb" hsort hnn
  have h' := claim_C1 c1snap "cccc" hsort hnn
  refine ⟨(h.2.1 (by decide)).1, (h'.2.2.1 (by decide)).1, h.1.1⟩

/-- C2: a single balance pass invokes the rebalance callback exactly when
the computed (base, total) pair differs from the current (inst_index,
total_threads); an unchanged pair leaves the handle unmodified with no
callback; a changed pair stores both fields before the callback, which
observes the new values. Stated for cluster_sql_balance_ and
cluster_etcd_balance_. -/
theorem pair_ne_iff (p : Int × Int) (i t : Int) : (p.2 ≠ t ∨ p.1 ≠ i) ↔ p ≠ (i, t) := by
  rcases p with ⟨a, b⟩
  constructor
  · rintro (h | h) heq
    · exact h (congrArg Prod.snd heq)
    · exact h (congrArg Prod.fst heq)
  · intro hne
    by_contra hc
    push_neg at hc
    exact hne (Prod.ext hc.2 hc.1)

theorem claim_C2 (c : CLUSTER) (reg : List ClusterNodeRow) (dict : List MemberRecord)
    (now : Nat) :
    ((cluster_sql_balance_ c reg now).2.isSome = true ↔
      sqlBalancePair c.instid c.passive (sqlSelectNodes c reg now) ≠
        (c.inst_index, c.total_threads)) ∧
    ((cluster_sql_balance_ c reg now).2 = none → (cluster_sql_balance_ c reg now).1 = c) ∧
    (∀ cb, (cluster_sql_balance_ c reg now).2 = some cb →
      (cluster_sql_balance_ c reg now).1.inst_index =
          (sqlBalancePair c.instid c.passive (sqlSelectNodes c reg now)).1 ∧
      (cluster_sql_balance_ c reg now).1.total_threads =
          (sqlBalancePair c.instid c.passive (sqlSelectNodes c reg now)).2 ∧
      cb.index = (sqlBalancePair c.instid c.passive (sqlSelectNodes c reg now)).1 ∧
      cb.total = (sqlBalancePair c.instid c.passive (sqlSelectNodes c reg now)).2) ∧
    ((cluster_etcd_balance_ c dict).2.isSome = true ↔
      etcdBalancePair c.instid dict ≠ (c.inst_index, c.total_threads)) ∧
    ((cluster_etcd_balance_ c dict).2 = none → (cluster_etcd_balance_ c dict).1 = c) ∧
    (∀ cb, (cluster_etcd_balance_ c dict).2 = some cb →
      (cluster_etcd_balance_ c dict).1.inst_index = (etcdBalancePair c.instid dict).1 ∧
      (cluster_etcd_balance_ c dict).1.total_threads = (etcdBalancePair c.instid dict).2 ∧
      cb.index = (etcdBalancePair c.instid dict).1 ∧
      cb.total = (etcdBalancePair c.instid dict).2) := by
  constructor
  · unfold cluster_sql_balance_
    by_cases h : (sqlBalancePair c.instid c.passive (sqlSelectNodes c reg now)).2 ≠
        c.total_threads ∨
        (sqlBalancePair c.instid c.passive (sqlSelectNodes c reg now)).1 ≠ c.inst_index
    · simp only [if_pos h, Option.isSome_some]
      exact iff_of_true trivial ((pair_ne_iff _ _ _).mp h)
    · simp only [if_neg h, Option.isSome_none]
      exact iff_of_false (by simp) (fun hne => hne ((pair_ne_iff _ _ _).not_left.mp h))
  constructor
  · unfold cluster_sql_balance_
    by_cases h : (sqlBalancePair c.instid c.passive (sqlSelectNodes c reg now)).2 ≠
        c.total_threads ∨
        (sqlBalancePair c.instid c.passive (sqlSelectNodes c reg now)).1 ≠ c.inst_index
    · simp [if_pos h]
    · simp [if_neg h]
  constructor
  · intro cb
    unfold cluster_sql_balance_
    by_cases h : (sqlBalancePair c.instid c.passive (sqlSelectNodes c reg now)).2 ≠
        c.total_threads ∨
        (sqlBalancePair c.instid c.passive (sqlSelectNodes c reg now)).1 ≠ c.inst_index
    · simp only [if_pos h, Option.some_inj]
      intro hcb
      subst hcb
      simp [cluster_rebalanced_]
    · simp [if_neg h]
  constructor
  · unfold cluster_etcd_balance_
    by_cases h : (etcdBalancePair c.instid dict).2 ≠ c.total_threads ∨
        (etcdBalancePair c.instid dict).1 ≠ c.inst_index
    · simp only [if_pos h, Option.isSome_some]
      exact iff_of_true trivial ((pair_ne_iff _ _ _).mp h)
    · simp only [if_neg h, Option.isSome_none]
      exact iff_of_false (by simp) (fun hne => hne ((pair_ne_iff _ _ _).not_left.mp h))
  constructor
  · unfold cluster_etcd_balance_
    by_cases h : (etcdBalancePair c.instid dict).2 ≠ c.total_threads ∨
        (etcdBalancePair c.instid dict).1 ≠ c.inst_index
    · simp [if_pos h]
    · simp [if_neg h]
  · intro cb
    unfold cluster_etcd_balance_
    by_cases h : (etcdBalancePair c.instid dict).2 ≠ c.total_threads ∨
        (etcdBalancePair c.instid dict).1 ≠ c.inst_index
    · simp only [if_pos h, Option.some_inj]
      intro hcb
      subst hcb
      simp [cluster_rebalanced_]
    · simp [if_neg h]

theorem mem_insertionSort_rec (l : List MemberRecord) (a : MemberRecord) :
    a ∈ List.insertionSort recLE l ↔ a ∈ l :=
  (List.perm_insertionSort recLE l).mem_iff

theorem balanceLoop_base_nonneg (instid : String) :
    ∀ (S : List MemberRecord) (b t0 : Int), 0 ≤ t0 →
      (∀ r ∈ S, 0 ≤ r.threads) →
      instid ∈ S.map MemberRecord.id →
      0 ≤ (balanceLoop instid false S b t0).1 := by
  intro S
  induction S with
  | nil => intro b t0 _ _ hm; simp at hm
  | cons r rest ih =>
      intro b t0 ht hnn hm
      have hrth : 0 ≤ r.threads := hnn r (List.mem_cons_self r rest)
      have hnn' : ∀ r' ∈ rest, 0 ≤ r'.threads :=
        fun r' hr' => hnn r' (List.mem_cons_of_mem r hr')
      have ht' : 0 ≤ t0 + r.threads := by linarith
      by_cases hmem : instid ∈ rest.map MemberRecord.id
      · simp only [balanceLoop]
        exact ih _ _ ht' hnn' hmem
      · have hrid : r.id = instid := by
          rcases List.mem_map.mp hm with ⟨a, ha, hid⟩
          rcases List.mem_cons.mp ha with h0 | h0
          · exact h0 ▸ hid
          · exact absurd (List.mem_map.mpr ⟨a, h0, hid⟩) hmem
        have hne : ∀ r' ∈ rest, r'.id ≠ instid := by
          intro r' hr' he
          exact hmem (List.mem_map.mpr ⟨r', hr', he⟩)
        simp only [balanceLoop]
        rw [if_pos (by exact ⟨hrid, by trivial⟩)]
        rw [balanceLoop_base_of_forall_ne instid false rest t0 (t0 + r.threads) hne]
        exact ht

theorem sqlSelectNodes_nonneg (c : CLUSTER) (reg : List ClusterNodeRow) (now : Nat)
    (hnn : ∀ r ∈ reg, 0 ≤ r.threads) :
    ∀ m ∈ sqlSelectNodes c reg now, 0 ≤ m.threads := by
  intro m hm
  rw [sqlSelectNodes, mem_insertionSort_rec] at hm
  rcases List.mem_map.mp hm with ⟨r, hr, rfl⟩
  exact hnn r (List.mem_of_mem_filter hr)

theorem sqlSelectNodes_mem_id (c : CLUSTER) (reg : List ClusterNodeRow) (now : Nat)
    (r : ClusterNodeRow) (hr : r ∈ reg)
    (hkey : r.key = c.key) (henv : r.env = c.env) (hpart : r.partition = c.partition)
    (hexp : now ≤ r.expires) :
    r.id ∈ (sqlSelectNodes c reg now).map MemberRecord.id := by
  have hm : MemberRecord.mk r.id r.threads ∈ sqlSelectNodes c reg now := by
    rw [sqlSelectNodes, mem_insertionSort_rec]
    refine List.mem_map.mpr ⟨r, ?_, rfl⟩
    rw [List.mem_filter]
    exact ⟨hr, by simp [hkey, henv, hpart, hexp]⟩
  exact List.mem_map.mpr ⟨MemberRecord.mk r.id r.threads, hm, rfl⟩

/-- Active (non-passive) ping effect on the cluster_node table: the
DELETE+INSERT of cluster_sql_perform_ping_ replaces this instance's row. -/
theorem cluster_sql_ping_active (c : CLUSTER) (reg : List ClusterNodeRow) (t : Nat)
    (h : c.passive = false) :
    cluster_sql_ping_ c reg t =
      (reg.filter (fun r => ¬(r.id = c.instid ∧ r.key = c.key ∧ r.env = c.env))) ++
      [pingRow c t] := by
  simp [cluster_sql_ping_, h, cluster_sql_perform_ping_, applySqlOp, List.foldl]

/-- C3: evaluation of the static join at the input on which the code and
its specification part ways. A fresh handle has static_index = 0 and
inst_workers = 1, and cluster_static_join_ defaults static_total to 1, so
the admission condition 0 ≤ static_index ≤ static_total - inst_workers
holds (0 ≤ 0 ≤ 0) and the join should succeed; the source instead requires
inst_index + inst_threads to be strictly below total_threads and fails
with EINVAL, leaving the handle unjoined. -/
theorem claim_C3 :
    (0 : Int) ≤ (cluster_create "cluster-test" "inst0").inst_index ∧
    (cluster_create "cluster-test" "inst0").inst_index +
        (cluster_create "cluster-test" "inst0").inst_threads ≤ 1 ∧
    (cluster_static_join_ (cluster_create "cluster-test" "inst0")).2.2.1.total_threads = 1 ∧
    (cluster_static_join_ (cluster_create "cluster-test" "inst0")).1 = -1 ∧
    (cluster_static_join_ (cluster_create "cluster-test" "inst0")).2.1 = some Errno.EINVAL ∧
    (cluster_static_join_ (cluster_create "cluster-test" "inst0")).2.2.1.joined = false := by
  refine ⟨by decide, by decide, ?_, ?_, ?_, ?_⟩ <;> rfl

/-- Handle used by the C4 counterexample and witness: a freshly created
handle marked joined. -/
def c4joined : CLUSTER := { cluster_create "ckey" "cinst" with joined := true }

/-- C4 counterexample: cluster_set_workers has no joined-guard in
src/cluster.c (lines 476-491); on a joined handle it returns success (0,
errno unset) and mutates inst_threads, contradicting the claim that every
configuration setter fails with busy and mutates nothing while joined. -/
theorem claim_C4_counterexample :
    c4joined.joined = true ∧
    cluster_set_workers c4joined 5 = (0, none, { c4joined with inst_threads := 5 }) ∧
    (cluster_set_workers c4joined 5).2.2 ≠ c4joined := by
  refine ⟨rfl, rfl, ?_⟩
  intro h
  exact absurd (congrArg CLUSTER.inst_threads h) (by decide)

/-- C4 (amended): while joined, every configuration setter except
cluster_set_workers fails with EPERM (busy) and leaves the handle
unchanged; cluster_set_workers, which has no guard in the source, succeeds
and stores the new worker count even while joined. cluster_set_partition
and cluster_set_fork are modelled from the spec (their revision of
cluster.c is not in src/). -/
theorem claim_C4 (c : CLUSTER) (h : c.joined = true)
    (e nm u p : Option String) (sqlScheme : String → Bool)
    (fm : Nat) (ii tt nw : Int) :
    cluster_set_env c e = (-1, some Errno.EPERM, c) ∧
    cluster_set_instance c nm = (-1, some Errno.EPERM, c) ∧
    cluster_set_registry sqlScheme c u = (-1, some Errno.EPERM, c) ∧
    cluster_set_partition c p = (-1, some Errno.EPERM, c) ∧
    cluster_set_fork c fm = (-1, some Errno.EPERM, c) ∧
    cluster_static_set_index c ii = (-1, some Errno.EPERM, c) ∧
    cluster_static_set_total c tt = (-1, some Errno.EPERM, c) ∧
    cluster_set_workers c nw = (0, none, { c with inst_threads := nw }) := by
  refine ⟨?_, ?_, ?_, ?_, ?_, ?_, ?_, rfl⟩ <;>
    simp [cluster_set_env, cluster_set_instance, cluster_set_registry,
      cluster_set_partition, cluster_set_fork, cluster_static_set_index,
      cluster_static_set_total, h]

theorem claim_C4_witness :
    cluster_set_env c4joined none = (-1, some Errno.EPERM, c4joined) ∧
    cluster_set_instance c4joined (some "other") = (-1, some Errno.EPERM, c4joined) ∧
    cluster_set_registry (fun _ => false) c4joined (some "mysql://db/x") =
      (-1, some Errno.EPERM, c4joined) ∧
    cluster_set_partition c4joined (some "p0") = (-1, some Errno.EPERM, c4joined) ∧
    cluster_set_fork c4joined 4 = (-1, some Errno.EPERM, c4joined) ∧
    cluster_static_set_index c4joined 2 = (-1, some Errno.EPERM, c4joined) ∧
    cluster_static_set_total c4joined 8 = (-1, some Errno.EPERM, c4joined) ∧
    cluster_set_workers c4joined 5 = (0, none, { c4joined with inst_threads := 5 }) :=
  claim_C4 c4joined rfl none (some "other") (some "mysql://db/x") (some "p0")
    (fun _ => false) 4 2 8 5

/-- C6: a passive member's ping is a no-op on the cluster_node table; the
balance fold never assigns it a base even when its id occurs in the
snapshot (inst_index stays -1 through a balance pass); and consequently a
balance pass of any other handle over a table the passive member has
pinged is identical to one over the untouched table. -/
theorem claim_C6 (c : CLUSTER) (h : c.passive = true) :
    (∀ (reg : List ClusterNodeRow) (t : Nat), cluster_sql_ping_ c reg t = reg) ∧
    (∀ S : List MemberRecord, (sqlBalancePair c.instid c.passive S).1 = -1) ∧
    (∀ (reg : List ClusterNodeRow) (now : Nat), c.inst_index = -1 →
      ((cluster_sql_balance_ c reg now).1).inst_index = -1) ∧
    (∀ (c2 : CLUSTER) (reg : List ClusterNodeRow) (t now : Nat),
      cluster_sql_balance_ c2 (cluster_sql_ping_ c reg t) now =
        cluster_sql_balance_ c2 reg now) := by
  have hping : ∀ (reg : List ClusterNodeRow) (t : Nat), cluster_sql_ping_ c reg t = reg := by
    intro reg t
    simp [cluster_sql_ping_, h]
  have hbase : ∀ S : List MemberRecord, (sqlBalancePair c.instid c.passive S).1 = -1 := by
    intro S
    rw [h]
    exact balanceLoop_base_passive c.instid S (-1) 0
  refine ⟨hping, hbase, ?_, ?_⟩
  · intro reg now hidx
    unfold cluster_sql_balance_
    by_cases hc : (sqlBalancePair c.instid c.passive (sqlSelectNodes c reg now)).2 ≠
        c.total_threads ∨
        (sqlBalancePair c.instid c.passive (sqlSelectNodes c reg now)).1 ≠ c.inst_index
    · simp only [if_pos hc]
      exact hbase _
    · simp only [if_neg hc]
      exact hidx
  · intro c2 reg t now
    rw [hping reg t]

/-- C6 witness: a concrete passive handle; its ping leaves the table alone
and the fold refuses it a base even though a record with its id is in the
snapshot. -/
def c6passive : CLUSTER := { cluster_create "k6" "i6" with passive := true }

theorem claim_C6_witness :
    cluster_sql_ping_ c6passive [] 0 = [] ∧
    (sqlBalancePair c6passive.instid c6passive.passive
      [{ id := "i6", threads := 4 }]).1 = -1 ∧
    cluster_sql_balance_ (cluster_create "k0" "i0") (cluster_sql_ping_ c6passive [] 5) 5 =
      cluster_sql_balance_ (cluster_create "k0" "i0") [] 5 := by
  have h := claim_C6 c6passive rfl
  exact ⟨h.1 [] 0, h.2.1 [{ id := "i6", threads := 4 }], h.2.2.2 (cluster_create "k0" "i0") [] 5 5⟩

/-- C7: every row cluster_sql_perform_ping_ publishes satisfies
expires = updated + ttl, both fields coming from the single time(NULL)
reading t taken at the ping, and both are rendered into the INSERT as
UTC "YYYY-MM-DD HH:MM:SS" strings by formatUTC. -/
theorem claim_C7 (c : CLUSTER) (t : Nat) :
    ∃ row : ClusterNodeRow,
      cluster_sql_perform_ping_ c t =
        [SqlOp.deleteNode c.instid c.key c.env,
         SqlOp.insertNode row (formatUTC row.updated) (formatUTC row.expires)] ∧
      row.expires = row.updated + c.ttl ∧
      row.updated = t ∧
      row.id = c.instid ∧
      row.threads = c.inst_threads :=
  ⟨pingRow c t, rfl, rfl, rfl, rfl, rfl⟩

theorem claim_C2_witness :
    (cluster_sql_balance_ (cluster_create "k2" "i2") [] 0).1.inst_index =
      (sqlBalancePair (cluster_create "k2" "i2").instid (cluster_create "k2" "i2").passive
        (sqlSelectNodes (cluster_create "k2" "i2") [] 0)).1 ∧
    (CLUSTERSTATE.mk (-1) 1 0).index =
      (sqlBalancePair (cluster_create "k2" "i2").instid (cluster_create "k2" "i2").passive
        (sqlSelectNodes (cluster_create "k2" "i2") [] 0)).1 ∧
    (CLUSTERSTATE.mk (-1) 1 0).total =
      (sqlBalancePair (cluster_create "k2" "i2").instid (cluster_create "k2" "i2").passive
        (sqlSelectNodes (cluster_create "k2" "i2") [] 0)).2 := by
  have h := claim_C2 (cluster_create "k2" "i2") [] [] 0
  have hc := h.2.2.1 (CLUSTERSTATE.mk (-1) 1 0) rfl
  exact ⟨hc.1, hc.2.2.1, hc.2.2.2⟩

theorem static_join_body_cases (c1 : CLUSTER) :
    ((if c1.inst_index ≥ c1.total_threads then ((-1 : Int), some Errno.EINVAL, c1, ([] : List CLUSTERSTATE))
      else if c1.inst_index + c1.inst_threads ≥ c1.total_threads then (-1, some Errno.EINVAL, c1, [])
      else (0, none, { c1 with joined := true }, [cluster_rebalanced_ { c1 with joined := true }])).1 = -1) ∨
    (((if c1.inst_index ≥ c1.total_threads then ((-1 : Int), some Errno.EINVAL, c1, ([] : List CLUSTERSTATE))
      else if c1.inst_index + c1.inst_threads ≥ c1.total_threads then (-1, some Errno.EINVAL, c1, [])
      else (0, none, { c1 with joined := true }, [cluster_rebalanced_ { c1 with joined := true }])).1 = 0) ∧
     ((if c1.inst_index ≥ c1.total_threads then ((-1 : Int), some Errno.EINVAL, c1, ([] : List CLUSTERSTATE))
      else if c1.inst_index + c1.inst_threads ≥ c1.total_threads then (-1, some Errno.EINVAL, c1, [])
      else (0, none, { c1 with joined := true }, [cluster_rebalanced_ { c1 with joined := true }])).2.2.2.length = 1)) := by
  by_cases h1 : c1.inst_index ≥ c1.total_threads
  · rw [if_pos h1]; left; rfl
  · rw [if_neg h1]
    by_cases h2 : c1.inst_index + c1.inst_threads ≥ c1.total_threads
    · rw [if_pos h2]; left; rfl
    · rw [if_neg h2]; right; exact ⟨rfl, rfl⟩

theorem static_join_cases (c : CLUSTER) :
    (cluster_static_join_ c).1 = -1 ∨
    ((cluster_static_join_ c).1 = 0 ∧ (cluster_static_join_ c).2.2.2.length = 1) := by
  show _ ∨ _
  exact static_join_body_cases (if c.total_threads = 0 then { c with total_threads := 1 } else c)

theorem cluster_sql_balance_fires (c0 : CLUSTER) (reg : List ClusterNodeRow) (now : Nat)
    (hidx : c0.inst_index = -1) (hpass : c0.passive = false)
    (hnn : ∀ r ∈ reg, 0 ≤ r.threads)
    (hmem : c0.instid ∈ (sqlSelectNodes c0 reg now).map MemberRecord.id) :
    (cluster_sql_balance_ c0 reg now).2.isSome = true := by
  have hb : 0 ≤ (sqlBalancePair c0.instid c0.passive (sqlSelectNodes c0 reg now)).1 := by
    rw [hpass]
    exact balanceLoop_base_nonneg c0.instid _ (-1) 0 le_rfl
      (sqlSelectNodes_nonneg c0 reg now hnn) hmem
  simp only [cluster_sql_balance_]
  split
  · rfl
  · next hcond =>
      exfalso
      push_neg at hcond
      rw [hidx] at hcond
      have h1 := hcond.2
      rw [h1] at hb
      exact absurd hb (by norm_num)

/-- C5 counterexample: a passive join of the SQL back-end against an empty
registry succeeds (returns 0, sets joined) yet invokes the rebalance
callback zero times: the ping is a passive no-op, the initial balance
computes (-1, 0), and the handle already holds inst_index = -1 (forced at
join entry) and total_threads = 0 (fresh handle), so the pass sees no
change and notifies nobody. The same run through the cluster_join_passive
entry point (modelled from the spec) is included. -/
def c5passive : CLUSTER :=
  { cluster_create "k5" "i5" with ctype := CLUSTERTYPE.CT_SQL, passive := true }

theorem claim_C5_counterexample :
    (cluster_sql_join_ c5passive [] 0).1 = 0 ∧
    (cluster_sql_join_ c5passive [] 0).2.1.joined = true ∧
    (cluster_sql_join_ c5passive [] 0).2.2.2 = [] ∧
    (cluster_join_passive { cluster_create "k5" "i5" with ctype := CLUSTERTYPE.CT_SQL }
        (World.mk [] []) 0).1 = 0 ∧
    (cluster_join_passive { cluster_create "k5" "i5" with ctype := CLUSTERTYPE.CT_SQL }
        (World.mk [] []) 0).2.2.2 = [] := by
  exact ⟨rfl, rfl, rfl, rfl, rfl⟩

/-- C5 (amended): a successful non-passive SQL join with a nonnegative
registry always invokes the rebalance callback at least once - the initial
synchronous balance pass runs after the first ping and before the loops
are spawned, and it necessarily observes a change because inst_index was
forced to -1 and this instance's freshly pinged record earns a nonnegative
base; a successful static join invokes the callback exactly once. A
passive dynamic join, however, may complete without any callback (see the
counterexample), so the unconditional claim holds only for non-passive
joins. -/
theorem claim_C5 (c : CLUSTER) (reg : List ClusterNodeRow) (t : Nat)
    (hpass : c.passive = false) (hw : 0 ≤ c.inst_threads)
    (hnn : ∀ r ∈ reg, 0 ≤ r.threads) :
    (cluster_sql_join_ c reg t).1 = 0 ∧
    (cluster_sql_join_ c reg t).2.2.2 ≠ [] ∧
    (∀ c' : CLUSTER, (cluster_static_join_ c').1 = 0 →
      (cluster_static_join_ c').2.2.2.length = 1) := by
  refine ⟨rfl, ?_, ?_⟩
  · have hreg1 := cluster_sql_ping_active
      { c with inst_index := -1, pingdb := true, balancedb := true } reg t hpass
    have hrow : pingRow { c with inst_index := -1, pingdb := true, balancedb := true } t ∈
        cluster_sql_ping_ { c with inst_index := -1, pingdb := true, balancedb := true } reg t := by
      rw [hreg1]
      exact List.mem_append_right _ (List.mem_singleton_self _)
    have hnn1 : ∀ r ∈ cluster_sql_ping_
        { c with inst_index := -1, pingdb := true, balancedb := true } reg t, 0 ≤ r.threads := by
      rw [hreg1]
      intro r hr
      rcases List.mem_append.mp hr with hl | hl
      · exact hnn r (List.mem_of_mem_filter hl)
      · rcases List.mem_singleton.mp hl with rfl
        exact hw
    have hmem := sqlSelectNodes_mem_id
      { c with inst_index := -1, pingdb := true, balancedb := true }
      (cluster_sql_ping_ { c with inst_index := -1, pingdb := true, balancedb := true } reg t) t
      (pingRow { c with inst_index := -1, pingdb := true, balancedb := true } t)
      hrow rfl rfl rfl (Nat.le_add_right t _)
    have key := cluster_sql_balance_fires
      { c with inst_index := -1, pingdb := true, balancedb := true }
      (cluster_sql_ping_ { c with inst_index := -1, pingdb := true, balancedb := true } reg t) t
      rfl hpass hnn1 hmem
    show (cluster_sql_balance_
      { c with inst_index := -1, pingdb := true, balancedb := true }
      (cluster_sql_ping_ { c with inst_index := -1, pingdb := true, balancedb := true } reg t)
      t).2.toList ≠ []
    rcases Option.isSome_iff_exists.mp key with ⟨cb, hcb⟩
    rw [hcb]
    simp
  · intro c' h
    rcases static_join_cases c' with hbad | ⟨_, hlen⟩
    · rw [hbad] at h
      exact absurd h (by decide)
    · exact hlen

/-- Handles used by the C5 witness: an active SQL joiner and a valid static
configuration (spec scenario S1). -/
def c5active : CLUSTER := { cluster_create "kw5" "iw5" with ctype := CLUSTERTYPE.CT_SQL }

def c5static : CLUSTER :=
  { cluster_create "ks5" "is5" with inst_index := 2, inst_threads := 3, total_threads := 8 }

theorem claim_C5_witness :
    (cluster_sql_join_ c5active [] 0).1 = 0 ∧
    (cluster_sql_join_ c5active [] 0).2.2.2 ≠ [] ∧
    (cluster_static_join_ c5static).2.2.2.length = 1 := by
  have h := claim_C5 c5active [] 0 rfl (by decide) (by simp)
  exact ⟨h.1, h.2.1, h.2.2 c5static rfl⟩

/-- C8: leave is idempotent - on a handle that is not joined it returns 0
and changes nothing, the handle is never joined after a leave, so the
second of two consecutive leaves is a no-op - and destroy always performs
a leave before freeing, for every handle state. -/
theorem claim_C8 (c : CLUSTER) (w : World) :
    (c.joined = false → cluster_leave c w = (0, c, w)) ∧
    ((cluster_leave c w).2.1).joined = false ∧
    cluster_leave (cluster_leave c w).2.1 (cluster_leave c w).2.2 =
      (0, (cluster_leave c w).2.1, (cluster_leave c w).2.2) ∧
    cluster_destroy c w =
      { world := (cluster_leave c w).2.2, leftHandle := (cluster_leave c w).2.1 } ∧
    (cluster_destroy c w).leftHandle.joined = false := by
  have hnj : ∀ (c' : CLUSTER) (w' : World), c'.joined = false →
      cluster_leave c' w' = (0, c', w') := by
    intro c' w' h
    unfold cluster_leave
    rw [if_pos h]
  have hjoined : ((cluster_leave c w).2.1).joined = false := by
    cases hcj : c.joined
    · rw [hnj c w hcj]
      exact hcj
    · unfold cluster_leave
      rw [if_neg (by simp [hcj])]
      cases hct : c.ctype <;>
        simp [cluster_static_leave_, cluster_etcd_leave_, cluster_sql_leave_]
  exact ⟨hnj c w, hjoined, hnj _ _ hjoined, rfl, hjoined⟩

/-- Handle and registry used by the C8 witness: a joined SQL member with a
live ping thread and its row in the table. -/
def c8joined : CLUSTER :=
  { cluster_create "k8" "i8" with
    joined := true, ctype := CLUSTERTYPE.CT_SQL
    ping_thread := true, balancer_thread := true }

def w8row : ClusterNodeRow :=
  { id := "i8", key := "k8", partition := none, env := "production"
    threads := 1, updated := 0, expires := 120 }

def w8 : World := { sqlReg := [w8row], etcdDir := [] }

theorem claim_C8_witness :
    cluster_leave (cluster_create "k8n" "i8n") w8 = (0, cluster_create "k8n" "i8n", w8) ∧
    ((cluster_leave c8joined w8).2.1).joined = false ∧
    cluster_leave (cluster_leave c8joined w8).2.1 (cluster_leave c8joined w8).2.2 =
      (0, (cluster_leave c8joined w8).2.1, (cluster_leave c8joined w8).2.2) ∧
    (cluster_destroy c8joined w8).leftHandle.joined = false := by
  have h1 := claim_C8 (cluster_create "k8n" "i8n") w8
  have h2 := claim_C8 c8joined w8
  exact ⟨h1.1 rfl, h2.2.1, h2.2.2.1, h2.2.2.2.2⟩

/-- C9: when not joined, cluster_index returns -1 and cluster_total and
cluster_workers return 0, each with errno EPERM and the handle unchanged;
when joined, cluster_index returns inst_index + worker for every worker
ordinal, with no range check. -/
theorem claim_C9 (c : CLUSTER) (worker : Int) :
    (c.joined = false →
      cluster_index c worker = (-1, some Errno.EPERM, c) ∧
      cluster_total c = (0, some Errno.EPERM, c) ∧
      cluster_workers c = (0, some Errno.EPERM, c)) ∧
    (c.joined = true →
      cluster_index c worker = (c.inst_index + worker, none, c)) := by
  constructor
  · intro h
    refine ⟨?_, ?_, ?_⟩ <;> simp [cluster_index, cluster_total, cluster_workers, h]
  · intro h
    simp [cluster_index, h]

/-- Handle used by the C9 witness: joined at base index 10 with the default
single worker, queried at the out-of-range ordinal 42. -/
def c9joined : CLUSTER := { cluster_create "k9" "i9" with joined := true, inst_index := 10 }

theorem claim_C9_witness :
    cluster_index (cluster_create "k9n" "i9n") 3 =
      (-1, some Errno.EPERM, cluster_create "k9n" "i9n") ∧
    cluster_total (cluster_create "k9n" "i9n") =
      (0, some Errno.EPERM, cluster_create "k9n" "i9n") ∧
    cluster_workers (cluster_create "k9n" "i9n") =
      (0, some Errno.EPERM, cluster_create "k9n" "i9n") ∧
    cluster_index c9joined 42 = (c9joined.inst_index + 42, none, c9joined) ∧
    c9joined.inst_index + 42 = 52 := by
  have h1 := claim_C9 (cluster_create "k9n" "i9n") 3
  have h2 := claim_C9 c9joined 42
  obtain ⟨ha, hb, hc⟩ := h1.1 rfl
  exact ⟨ha, hb, hc, h2.2 rfl, by decide⟩

/-- C10: joining a handle that is already joined returns 0 immediately,
without touching the registries (no re-ping), without starting threads,
without invoking any callback and without modifying the handle. -/
theorem claim_C10 (c : CLUSTER) (w : World) (t : Nat) (h : c.joined = true) :
    cluster_join c w t = (0, c, w, []) := by
  unfold cluster_join
  rw [if_pos h]

/-- Handle used by the C10 witness: an already-joined SQL member. -/
def c10joined : CLUSTER :=
  { cluster_create "kA" "iA" with
    joined := true, ctype := CLUSTERTYPE.CT_SQL
    inst_index := 0, total_threads := 1 }

theorem claim_C10_witness :
    cluster_join c10joined (World.mk [] []) 7 = (0, c10joined, World.mk [] [], []) :=
  claim_C10 c10joined (World.mk [] []) 7 rfl

end Libcluster
